import Mathlib

/-!
# Verification of the multiplayer_game state-synchronization server

Shallow embedding of the Rust sources of `Larmbs/multiplayer_game`:

* `Wire` — the wire codec of `src/common/src/message.rs` (which delegates to
  `bincode` with `config::standard()`: little-endian, variable-width integer
  encoding) together with the `write_to_tcp_stream` / `read_from_tcp_stream`
  framing helpers.  Rust `String`s are modelled as their UTF-8 byte sequences
  and `f32` fields as their 32-bit IEEE bit patterns (the codec never performs
  arithmetic on them, it only copies the 4 bytes little-endian).
* `Legacy` — the world of `src/common/src/world/mod.rs` (`World` with
  `update_player` / `remove_player`).
* `Ent` — the world of `src/common/src/world/entities.rs` (`Player` with
  `pos`/`vel`, `Entities.update`), the per-connection actor of
  `src/server/src/server/handle.rs` and the dispatcher / tick task of
  `src/server/src/server/mod.rs`.  `f32` simulation arithmetic is modelled
  over `ℚ` (exact at every input used below).

All byte values are `Nat`s below 256 where produced by the encoders; readers
consume plain `List Nat` streams.
-/

namespace Wire

/-- Little-endian byte encoding of `n`, `k` bytes wide (bincode's fixed-width
integer layout under `config::standard()`'s little endianness). -/
def leBytes : Nat → Nat → List Nat
  | 0, _ => []
  | k + 1, n => n % 256 :: leBytes k (n / 256)

/-- Read `k` little-endian bytes from the stream. -/
def readLE : Nat → List Nat → Option (Nat × List Nat)
  | 0, bs => some (0, bs)
  | _ + 1, [] => none
  | k + 1, b :: bs =>
    match readLE k bs with
    | none => none
    | some (v, rest) => some (b + 256 * v, rest)

/-- bincode `config::standard()` varint encoding of an unsigned integer:
values below 251 are a single byte; otherwise a marker byte (251/252/253)
followed by a 2-, 4- or 8-byte little-endian fixed-width value. -/
def varint (n : Nat) : List Nat :=
  if n < 251 then [n]
  else if n < 2 ^ 16 then 251 :: leBytes 2 n
  else if n < 2 ^ 32 then 252 :: leBytes 4 n
  else 253 :: leBytes 8 n

/-- bincode varint decoding (for integer targets up to `u64`); marker bytes
254 and 255 announce 16-byte integers and are rejected. -/
def readVarint : List Nat → Option (Nat × List Nat)
  | [] => none
  | b :: bs =>
    if b < 251 then some (b, bs)
    else if b = 251 then readLE 2 bs
    else if b = 252 then readLE 4 bs
    else if b = 253 then readLE 8 bs
    else none

/-- Read `k` raw bytes from the stream. -/
def readBytes : Nat → List Nat → Option (List Nat × List Nat)
  | 0, bs => some ([], bs)
  | _ + 1, [] => none
  | k + 1, b :: bs =>
    match readBytes k bs with
    | none => none
    | some (xs, rest) => some (b :: xs, rest)

/-- bincode layout of a `String` (and of any byte sequence): u64 varint
length followed by the bytes.  A Rust `String` is modelled by its UTF-8
byte sequence. -/
def encString (s : List Nat) : List Nat := varint s.length ++ s

def readString (bs : List Nat) : Option (List Nat × List Nat) :=
  (readVarint bs).bind fun (n, rest) => readBytes n rest

/-- bincode layout of an `f32` under `config::standard()`: its 4 IEEE bytes,
little-endian.  The float is modelled by its 32-bit pattern. -/
def encF32 (bits : Nat) : List Nat := leBytes 4 bits

def readF32 (bs : List Nat) : Option (Nat × List Nat) := readLE 4 bs

/-- `Player` of `src/common/src/world/mod.rs`, the payload type of
`src/common/src/message.rs`: username plus `f32` position and velocity
components (kept as bit patterns). -/
structure Player where
  username : List Nat
  x : Nat
  y : Nat
  vx : Nat
  vy : Nat
deriving DecidableEq

/-- Range side conditions guaranteed by the Rust types (`usize` string
length, 32-bit float patterns). -/
def Player.Wf (p : Player) : Prop :=
  p.username.length < 2 ^ 64 ∧ p.x < 2 ^ 32 ∧ p.y < 2 ^ 32 ∧
    p.vx < 2 ^ 32 ∧ p.vy < 2 ^ 32

instance (p : Player) : Decidable p.Wf := by unfold Player.Wf; infer_instance

/-- bincode encoding of a `Player` (derived `Encode`: fields in declaration
order). -/
def Player.enc (p : Player) : List Nat :=
  encString p.username ++ encF32 p.x ++ encF32 p.y ++ encF32 p.vx ++ encF32 p.vy

def readPlayer (bs : List Nat) : Option (Player × List Nat) :=
  (readString bs).bind fun (u, bs) =>
  (readF32 bs).bind fun (x, bs) =>
  (readF32 bs).bind fun (y, bs) =>
  (readF32 bs).bind fun (vx, bs) =>
  (readF32 bs).bind fun (vy, bs) =>
  some (⟨u, x, y, vx, vy⟩, bs)

/-- `Projectile` of `src/common/src/world/mod.rs`. -/
structure Projectile where
  x : Nat
  y : Nat
  vx : Nat
  vy : Nat
deriving DecidableEq

def Projectile.Wf (pr : Projectile) : Prop :=
  pr.x < 2 ^ 32 ∧ pr.y < 2 ^ 32 ∧ pr.vx < 2 ^ 32 ∧ pr.vy < 2 ^ 32

instance (pr : Projectile) : Decidable pr.Wf := by
  unfold Projectile.Wf; infer_instance

def Projectile.enc (pr : Projectile) : List Nat :=
  encF32 pr.x ++ encF32 pr.y ++ encF32 pr.vx ++ encF32 pr.vy

def readProjectile (bs : List Nat) : Option (Projectile × List Nat) :=
  (readF32 bs).bind fun (x, bs) =>
  (readF32 bs).bind fun (y, bs) =>
  (readF32 bs).bind fun (vx, bs) =>
  (readF32 bs).bind fun (vy, bs) =>
  some (⟨x, y, vx, vy⟩, bs)

/-- bincode encoding of the `(key, value)` pairs of a `HashMap<u64, Player>`
in iteration order (the map value is modelled by its iteration sequence). -/
def encPairs : List (Nat × Player) → List Nat
  | [] => []
  | (k, p) :: ps => varint k ++ Player.enc p ++ encPairs ps

def readPairs : Nat → List Nat → Option (List (Nat × Player) × List Nat)
  | 0, bs => some ([], bs)
  | n + 1, bs =>
    (readVarint bs).bind fun (k, bs) =>
    (readPlayer bs).bind fun (p, bs) =>
    (readPairs n bs).bind fun (ps, bs) =>
    some ((k, p) :: ps, bs)

/-- bincode layout of `HashMap<u64, Player>`: u64 varint length then the
pairs. -/
def encPlayersMap (ps : List (Nat × Player)) : List Nat :=
  varint ps.length ++ encPairs ps

def readPlayersMap (bs : List Nat) : Option (List (Nat × Player) × List Nat) :=
  (readVarint bs).bind fun (n, bs) => readPairs n bs

def PairsWf (ps : List (Nat × Player)) : Prop :=
  ps.length < 2 ^ 64 ∧ ∀ kp ∈ ps, kp.1 < 2 ^ 64 ∧ kp.2.Wf

instance (ps : List (Nat × Player)) : Decidable (PairsWf ps) := by
  unfold PairsWf; infer_instance

/-- bincode layout of `Vec<Projectile>`. -/
def encProjList : List Projectile → List Nat
  | [] => []
  | pr :: prs => Projectile.enc pr ++ encProjList prs

def readProjList : Nat → List Nat → Option (List Projectile × List Nat)
  | 0, bs => some ([], bs)
  | n + 1, bs =>
    (readProjectile bs).bind fun (pr, bs) =>
    (readProjList n bs).bind fun (prs, bs) =>
    some (pr :: prs, bs)

def encProjVec (prs : List Projectile) : List Nat :=
  varint prs.length ++ encProjList prs

def readProjVec (bs : List Nat) : Option (List Projectile × List Nat) :=
  (readVarint bs).bind fun (n, bs) => readProjList n bs

def ProjsWf (prs : List Projectile) : Prop :=
  prs.length < 2 ^ 64 ∧ ∀ pr ∈ prs, pr.Wf

instance (prs : List Projectile) : Decidable (ProjsWf prs) := by
  unfold ProjsWf; infer_instance

/-- `ServerMessage` of `src/common/src/message.rs`.  The `HashMap` payload of
`UpdatePlayers` is modelled by its iteration sequence of pairs. -/
inductive ServerMessage where
  | Ping
  | Disconnect
  | ConnectionAccepted (id : Nat)
  | PasswordFailed
  | UpdatePlayers (players : List (Nat × Player))
  | UpdateProjectiles (projectiles : List Projectile)
deriving DecidableEq

/-- Range side conditions guaranteed by the Rust types (`u64` id, `usize`
lengths, `f32` patterns). -/
def ServerMessage.Wf : ServerMessage → Prop
  | .ConnectionAccepted id => id < 2 ^ 64
  | .UpdatePlayers ps => PairsWf ps
  | .UpdateProjectiles prs => ProjsWf prs
  | _ => True

instance (m : ServerMessage) : Decidable m.Wf := by
  cases m <;> (unfold ServerMessage.Wf; infer_instance)

/-- `ServerMessage::encode` (derived bincode `Encode` with
`config::standard()`): u32 varint discriminant in declaration order, then
the payload fields. -/
def ServerMessage.encode : ServerMessage → List Nat
  | .Ping => varint 0
  | .Disconnect => varint 1
  | .ConnectionAccepted id => varint 2 ++ varint id
  | .PasswordFailed => varint 3
  | .UpdatePlayers ps => varint 4 ++ encPlayersMap ps
  | .UpdateProjectiles prs => varint 5 ++ encProjVec prs

def readServerMessage (bs : List Nat) : Option (ServerMessage × List Nat) :=
  (readVarint bs).bind fun (d, bs) =>
    match d with
    | 0 => some (.Ping, bs)
    | 1 => some (.Disconnect, bs)
    | 2 => (readVarint bs).bind fun (id, bs) => some (.ConnectionAccepted id, bs)
    | 3 => some (.PasswordFailed, bs)
    | 4 => (readPlayersMap bs).bind fun (ps, bs) => some (.UpdatePlayers ps, bs)
    | 5 => (readProjVec bs).bind fun (prs, bs) => some (.UpdateProjectiles prs, bs)
    | _ => none

/-- `ServerMessage::decode = bincode::decode_from_slice`: the message and the
number of bytes consumed. -/
def ServerMessage.decode (bs : List Nat) : Option (ServerMessage × Nat) :=
  (readServerMessage bs).map fun mr => (mr.1, bs.length - mr.2.length)

/-- `ClientMessage` of `src/common/src/message.rs`. -/
inductive ClientMessage where
  | Connect (username password : List Nat)
  | Disconnect
  | Ping
  | NotifyUpdatePlayer (player : Player)
  | NotifyShot (projectile : Projectile)
deriving DecidableEq

def ClientMessage.Wf : ClientMessage → Prop
  | .Connect u p => u.length < 2 ^ 64 ∧ p.length < 2 ^ 64
  | .NotifyUpdatePlayer p => p.Wf
  | .NotifyShot pr => pr.Wf
  | _ => True

instance (m : ClientMessage) : Decidable m.Wf := by
  cases m <;> (unfold ClientMessage.Wf; infer_instance)

/-- `ClientMessage::encode`. -/
def ClientMessage.encode : ClientMessage → List Nat
  | .Connect u p => varint 0 ++ encString u ++ encString p
  | .Disconnect => varint 1
  | .Ping => varint 2
  | .NotifyUpdatePlayer p => varint 3 ++ Player.enc p
  | .NotifyShot pr => varint 4 ++ Projectile.enc pr

def readClientMessage (bs : List Nat) : Option (ClientMessage × List Nat) :=
  (readVarint bs).bind fun (d, bs) =>
    match d with
    | 0 =>
      (readString bs).bind fun (u, bs) =>
      (readString bs).bind fun (p, bs) =>
      some (.Connect u p, bs)
    | 1 => some (.Disconnect, bs)
    | 2 => some (.Ping, bs)
    | 3 => (readPlayer bs).bind fun (p, bs) => some (.NotifyUpdatePlayer p, bs)
    | 4 => (readProjectile bs).bind fun (pr, bs) => some (.NotifyShot pr, bs)
    | _ => none

/-- `ClientMessage::decode = bincode::decode_from_slice`. -/
def ClientMessage.decode (bs : List Nat) : Option (ClientMessage × Nat) :=
  (readClientMessage bs).map fun mr => (mr.1, bs.length - mr.2.length)

/-- Big-endian 4-byte encoding, as written by tokio's `write_u32`. -/
def be32 (n : Nat) : List Nat :=
  [n / 2 ^ 24 % 256, n / 2 ^ 16 % 256, n / 2 ^ 8 % 256, n % 256]

/-- `ServerMessage::write_to_tcp_stream`: `write_u32(encoded.len())`
(big-endian) followed by `write_all(&encoded)`. -/
def ServerMessage.writeToTcp (m : ServerMessage) : List Nat :=
  be32 m.encode.length ++ m.encode

/-- `ServerMessage::read_from_tcp_stream`: a single `stream.read` into a
zero-initialized `[u8; 1024]` buffer; a zero-byte read yields `Disconnect`,
otherwise `decode` is invoked on the *whole* buffer starting at its first
byte (no length prefix is consumed first).  `received` is what the single
read returned; a decode error (`?`) is `none`. -/
def ServerMessage.readFromTcp (received : List Nat) : Option ServerMessage :=
  if received.length = 0 then some .Disconnect
  else
    (ServerMessage.decode
      (received ++ List.replicate (1024 - received.length) 0)).map Prod.fst

/-- `ClientMessage::write_to_tcp_stream`. -/
def ClientMessage.writeToTcp (m : ClientMessage) : List Nat :=
  be32 m.encode.length ++ m.encode

/-- `ClientMessage::read_from_tcp_stream`. -/
def ClientMessage.readFromTcp (received : List Nat) : Option ClientMessage :=
  if received.length = 0 then some .Disconnect
  else
    (ClientMessage.decode
      (received ++ List.replicate (1024 - received.length) 0)).map Prod.fst

end Wire

/-- Association-list model of a `HashMap<u64, V>` (keys unique): `insert`
replaces the entry if the key is present and adds it otherwise — this is both
`HashMap::insert` and `World::update_player`'s `get_mut`-replace-or-`insert`
branch of `src/common/src/world/mod.rs`. -/
def hmInsert {α : Type} : List (Nat × α) → Nat → α → List (Nat × α)
  | [], id, v => [(id, v)]
  | (k, w) :: ps, id, v =>
    if k = id then (k, v) :: ps else (k, w) :: hmInsert ps id v

/-- `HashMap::remove` / `World::remove_player`: drop the entry at the key if
present, no-op otherwise. -/
def hmRemove {α : Type} (ps : List (Nat × α)) (id : Nat) : List (Nat × α) :=
  ps.filter fun kp => kp.1 != id

/-- `HashMap::get` on the association-list model. -/
def hmLookup {α : Type} : List (Nat × α) → Nat → Option α
  | [], _ => none
  | (k, v) :: ps, id => if k = id then some v else hmLookup ps id

namespace Legacy

/-- `World` of `src/common/src/world/mod.rs`: the player map (modelled as an
association list) and the projectiles.  Its `Player`/`Projectile` value types
are the ones already embedded in `Wire`. -/
structure World where
  players : List (Nat × Wire.Player)
  projectiles : List Wire.Projectile
deriving DecidableEq

/-- `World::new`. -/
def World.new : World := ⟨[], []⟩

/-- `World::update_player`: replace the player at `id` if present
(`get_mut` branch), insert it otherwise. -/
def World.update_player (w : World) (id : Nat) (p : Wire.Player) : World :=
  { w with players := hmInsert w.players id p }

/-- `World::remove_player`. -/
def World.remove_player (w : World) (id : Nat) : World :=
  { w with players := hmRemove w.players id }

/-- `World::get_all_players`. -/
def World.get_all_players (w : World) : List (Nat × Wire.Player) := w.players

end Legacy

namespace Ent

/-- `Vec2` of `src/common/src/vec.rs`, with `f32` components modelled over
`ℚ` (every computation below is exact in `f32` as well). -/
structure Vec2 where
  x : ℚ
  y : ℚ
deriving DecidableEq

/-- `Vec2::ZERO`. -/
def Vec2.ZERO : Vec2 := ⟨0, 0⟩

/-- `Color` of `src/common/src/color.rs` (RGB triple). -/
structure Color where
  r : ℚ
  g : ℚ
  b : ℚ
deriving DecidableEq

/-- `Player` of `src/common/src/world/entities.rs`. -/
structure Player where
  username : String
  color : Color
  pos : Vec2
  vel : Vec2
deriving DecidableEq

/-- `Player::update`: `pos.x += vel.x * dt; pos.y += vel.y * dt`. -/
def Player.update (p : Player) (dt : ℚ) : Player :=
  { p with pos := ⟨p.pos.x + p.vel.x * dt, p.pos.y + p.vel.y * dt⟩ }

/-- `Entities` of `src/common/src/world/entities.rs`; its
`HashMap<u64, Player>` is modelled as an association list. -/
structure Entities where
  players : List (Nat × Player)
deriving DecidableEq

/-- `Entities::update`: update every player in the map. -/
def Entities.update (e : Entities) (dt : ℚ) : Entities :=
  ⟨e.players.map fun kp => (kp.1, kp.2.update dt)⟩

/-- The `World` variant consumed by `src/server/src/server/handle.rs`
(`world.entities.players`); only its `entities` aggregate is touched by the
server code under verification. -/
structure World where
  entities : Entities
deriving DecidableEq

/-- `ServerMessage` as consumed by the `server/mod.rs` + `handle.rs`
iteration (`ConnectionAccepted`, `UpdateEntities`, `Ping` are the variants it
constructs). -/
inductive ServerMessage where
  | Ping
  | Disconnect
  | ConnectionAccepted (id : Nat)
  | UpdateEntities (entities : Entities)
deriving DecidableEq

/-- `ClientMessage` as matched by `ClientHandle::handle` in
`src/server/src/server/handle.rs`. -/
inductive ClientMessage where
  | Connect (username password : String)
  | Disconnect
  | Ping
  | NotifyUpdatePlayer (player : Player)
deriving DecidableEq

/-- `ServerCommand` of `src/server/src/server/mod.rs`. -/
inductive ServerCommand where
  | Broadcast (msg : ServerMessage)
  | UpdateEntities
deriving DecidableEq

/-- `ServerConfig` of `src/server/src/cli.rs`. -/
structure ServerConfig where
  serverName : String
  password : Option String
  maxClients : Nat
  broadcast : Bool
deriving DecidableEq

/-- The mutable per-connection state of `ClientHandle` (`handle.rs`): the
server-assigned `client_id` and the `accepted` flag. -/
structure HandleState where
  clientId : Nat
  accepted : Bool
deriving DecidableEq

/-- `ClientHandle::new`: the handle starts with `accepted: false`. -/
def ClientHandle.init (clientId : Nat) : HandleState := ⟨clientId, false⟩

/-- One completion of the `select!` in `ClientHandle::handle`: the read
future yields a decoded message, a zero-byte read or a transport/decode
error, or the outbound queue (`rx.recv()`) yields a message to forward. -/
inductive Event where
  | read (m : ClientMessage)
  | readEof
  | readErr
  | outbound (m : ServerMessage)
deriving DecidableEq

/-- How an iteration of the actor loop ends: keep looping, `break` out of the
loop (then `Ok(())`), or propagate an error via `?` (early `Err` return). -/
inductive Outcome where
  | looping
  | exited
  | errored
deriving DecidableEq

/-- Effects of one iteration of the actor loop: next handle state, next
world, commands sent to the dispatcher (`tx.send`), messages written to this
connection's socket, and how the iteration ended. -/
structure StepResult where
  state : HandleState
  world : World
  cmds : List ServerCommand
  writes : List ServerMessage
  outcome : Outcome
deriving DecidableEq

/-- One iteration of the loop in `ClientHandle::handle`
(`src/server/src/server/handle.rs`).  `randColor` stands for the value
`Color::random()` returned in the `Connect` branch.  A zero-byte read is
turned into `ClientMessage::Disconnect` by
`ClientMessage::read_from_tcp_stream`; a read or decode failure propagates
through `?` before any message handling. -/
def ClientHandle.handleStep (cfg : ServerConfig) (randColor : Color)
    (st : HandleState) (w : World) : Event → StepResult
  | .read .Ping =>
    ⟨st, w, [.Broadcast .Ping], [], .looping⟩
  | .read (.Connect username password) =>
    if cfg.password = none ∨ cfg.password = some password then
      ⟨⟨st.clientId, true⟩,
        ⟨⟨hmInsert w.entities.players st.clientId
          ⟨username, randColor, Vec2.ZERO, Vec2.ZERO⟩⟩⟩,
        [.UpdateEntities], [.ConnectionAccepted st.clientId], .looping⟩
    else
      ⟨st, w, [], [], .looping⟩
  | .read (.NotifyUpdatePlayer p) =>
    ⟨st, ⟨⟨hmInsert w.entities.players st.clientId p⟩⟩,
      [.UpdateEntities], [], .looping⟩
  | .read .Disconnect =>
    ⟨st, ⟨⟨hmRemove w.entities.players st.clientId⟩⟩,
      [.UpdateEntities], [], .exited⟩
  | .readEof =>
    ⟨st, ⟨⟨hmRemove w.entities.players st.clientId⟩⟩,
      [.UpdateEntities], [], .exited⟩
  | .readErr =>
    ⟨st, w, [], [], .errored⟩
  | .outbound m =>
    ⟨st, w, [], if st.accepted then [m] else [], .looping⟩

/-- Whether an event is a `Connect` that passes the password check of the
`Connect` branch. -/
def connectSucceeds (cfg : ServerConfig) : Event → Bool
  | .read (.Connect _ password) =>
    decide (cfg.password = none ∨ cfg.password = some password)
  | _ => false

/-- The socket writes an iteration owes to the outbound-drain (`rx.recv`)
branch: the step's writes when the event came from the outbound queue,
nothing otherwise. -/
def ClientHandle.drainOf : Event → StepResult → List ServerMessage
  | .outbound _, r => r.writes
  | _, _ => []

/-- Run the actor loop over a list of completed events, stopping when an
iteration breaks or errors; the third component collects only the socket
writes made by the outbound-drain branch. -/
def ClientHandle.run (cfg : ServerConfig) (randColor : Color) :
    HandleState → World → List Event → HandleState × World × List ServerMessage
  | st, w, [] => (st, w, [])
  | st, w, e :: es =>
    let r := ClientHandle.handleStep cfg randColor st w e
    if r.outcome = .looping then
      let rest := ClientHandle.run cfg randColor r.state r.world es
      (rest.1, rest.2.1, ClientHandle.drainOf e r ++ rest.2.2)
    else
      (r.state, r.world, ClientHandle.drainOf e r)

/-- The timer period of the tick task in `Server::run`:
`Duration::from_secs_f64(1.0 / 60.0)`. -/
def tickPeriod : ℚ := 1 / 60

/-- The `dt` the tick task actually passes: `w.entities.update(0.05)`. -/
def tickDt : ℚ := 1 / 20

/-- The body of one tick of the spawned timer task in `Server::run`
(`src/server/src/server/mod.rs`): advance the entities by the hard-coded
`dt`, then broadcast the updated entities snapshot. -/
def Server.tickBody (w : World) : World × ServerCommand :=
  let w' : World := ⟨w.entities.update tickDt⟩
  (w', .Broadcast (.UpdateEntities w'.entities))

/-- The dispatcher state of `Server::run`: the registered outbound queue
handles (`client_txs`, each identified by the player id handed to the
`ClientHandle` it feeds) and the `player_id_counter`. -/
structure ServerState where
  clientTxs : List Nat
  playerIdCounter : Nat
deriving DecidableEq

/-- `Server::init`: empty registry, id counter at 1. -/
def Server.initState : ServerState := ⟨[], 1⟩

/-- The accept branch of the `select!` in `Server::run`: if the registry is
below `max_clients`, register a fresh outbound queue, allocate the next
player id (`fetch_add`) and spawn a `ClientHandle` for it (returned as
`some`); otherwise nothing happens and the accepted stream is dropped
(`none`: no actor, no id, nothing ever written to that socket). -/
def Server.acceptStep (cfg : ServerConfig) (s : ServerState) :
    ServerState × Option HandleState :=
  if s.clientTxs.length < cfg.maxClients then
    (⟨s.clientTxs ++ [s.playerIdCounter], s.playerIdCounter + 1⟩,
      some (ClientHandle.init s.playerIdCounter))
  else
    (s, none)

/-- The command branch of the `select!` in `Server::run`: both commands send
to every registered queue (send failures ignored) and leave the registry
untouched; `UpdateEntities` snapshots the world at drain time. -/
def Server.commandStep (s : ServerState) (w : World) :
    ServerCommand → ServerState × List (Nat × ServerMessage)
  | .Broadcast m => (s, s.clientTxs.map fun t => (t, m))
  | .UpdateEntities =>
    (s, s.clientTxs.map fun t => (t, .UpdateEntities w.entities))

end Ent

namespace Wire

theorem leBytes_length (k n : Nat) : (leBytes k n).length = k := by
  induction k generalizing n with
  | zero => rfl
  | succ k ih => simp [leBytes, ih]

theorem readLE_leBytes (k n : Nat) (rest : List Nat) :
    readLE k (leBytes k n ++ rest) = some (n % 256 ^ k, rest) := by
  induction k generalizing n with
  | zero => simp [leBytes, readLE, Nat.mod_one]
  | succ k ih =>
    simp only [leBytes, List.cons_append, readLE, List.append_eq, ih (n / 256)]
    have h1 : n / 256 % 256 ^ k = n % 256 ^ (k + 1) / 256 := by
      rw [← Nat.mod_mul_right_div_self, ← pow_succ']
    have h2 : n % 256 = n % 256 ^ (k + 1) % 256 :=
      (Nat.mod_mod_of_dvd n (dvd_pow_self 256 (Nat.succ_ne_zero k))).symm
    rw [h1, h2, Nat.mod_add_div]

theorem readVarint_varint (n : Nat) (hn : n < 2 ^ 64) (rest : List Nat) :
    readVarint (varint n ++ rest) = some (n, rest) := by
  unfold varint
  by_cases h1 : n < 251
  · simp [readVarint, h1]
  · by_cases h2 : n < 2 ^ 16
    · rw [if_neg h1, if_pos h2]
      have hr : readVarint (251 :: (leBytes 2 n ++ rest)) =
          readLE 2 (leBytes 2 n ++ rest) := by simp [readVarint]
      rw [List.cons_append, hr, readLE_leBytes,
        Nat.mod_eq_of_lt (show n < 256 ^ 2 by norm_num at h2 ⊢; omega)]
    · by_cases h3 : n < 2 ^ 32
      · rw [if_neg h1, if_neg h2, if_pos h3]
        have hr : readVarint (252 :: (leBytes 4 n ++ rest)) =
            readLE 4 (leBytes 4 n ++ rest) := by simp [readVarint]
        rw [List.cons_append, hr, readLE_leBytes,
          Nat.mod_eq_of_lt (show n < 256 ^ 4 by norm_num at h3 ⊢; omega)]
      · rw [if_neg h1, if_neg h2, if_neg h3]
        have hr : readVarint (253 :: (leBytes 8 n ++ rest)) =
            readLE 8 (leBytes 8 n ++ rest) := by simp [readVarint]
        rw [List.cons_append, hr, readLE_leBytes,
          Nat.mod_eq_of_lt (show n < 256 ^ 8 by norm_num at hn ⊢; omega)]

theorem readBytes_append (xs rest : List Nat) :
    readBytes xs.length (xs ++ rest) = some (xs, rest) := by
  induction xs with
  | nil => rfl
  | cons b xs ih => simp [readBytes, ih]

theorem readString_encString (s rest : List Nat) (h : s.length < 2 ^ 64) :
    readString (encString s ++ rest) = some (s, rest) := by
  simp [readString, encString, List.append_assoc, readVarint_varint s.length h,
    readBytes_append]

theorem readF32_encF32 (bits : Nat) (h : bits < 2 ^ 32) (rest : List Nat) :
    readF32 (encF32 bits ++ rest) = some (bits, rest) := by
  rw [readF32, encF32, readLE_leBytes,
    Nat.mod_eq_of_lt (show bits < 256 ^ 4 by norm_num at h ⊢; omega)]

theorem readPlayer_enc (p : Player) (hp : p.Wf) (rest : List Nat) :
    readPlayer (Player.enc p ++ rest) = some (p, rest) := by
  obtain ⟨h1, h2, h3, h4, h5⟩ := hp
  simp [readPlayer, Player.enc, List.append_assoc, readString_encString _ _ h1,
    readF32_encF32 _ h2, readF32_encF32 _ h3, readF32_encF32 _ h4,
    readF32_encF32 _ h5]

theorem readProjectile_enc (pr : Projectile) (hp : pr.Wf) (rest : List Nat) :
    readProjectile (Projectile.enc pr ++ rest) = some (pr, rest) := by
  obtain ⟨h1, h2, h3, h4⟩ := hp
  simp [readProjectile, Projectile.enc, List.append_assoc, readF32_encF32 _ h1,
    readF32_encF32 _ h2, readF32_encF32 _ h3, readF32_encF32 _ h4]

theorem readPairs_encPairs (ps : List (Nat × Player))
    (h : ∀ kp ∈ ps, kp.1 < 2 ^ 64 ∧ kp.2.Wf) (rest : List Nat) :
    readPairs ps.length (encPairs ps ++ rest) = some (ps, rest) := by
  induction ps with
  | nil => rfl
  | cons kp ps ih =>
    obtain ⟨hk, hp⟩ := h kp (List.mem_cons_self kp ps)
    obtain ⟨k, p⟩ := kp
    simp only [List.length_cons, encPairs, List.append_assoc, readPairs,
      readVarint_varint k hk, Option.bind_eq_bind, Option.some_bind,
      readPlayer_enc p hp, ih fun kp hkp => h kp (List.mem_cons_of_mem _ hkp)]

theorem readPlayersMap_enc (ps : List (Nat × Player)) (h : PairsWf ps)
    (rest : List Nat) :
    readPlayersMap (encPlayersMap ps ++ rest) = some (ps, rest) := by
  obtain ⟨hl, he⟩ := h
  simp [readPlayersMap, encPlayersMap, List.append_assoc,
    readVarint_varint ps.length hl, readPairs_encPairs ps he rest]

theorem readProjList_enc (prs : List Projectile) (h : ∀ pr ∈ prs, pr.Wf)
    (rest : List Nat) :
    readProjList prs.length (encProjList prs ++ rest) = some (prs, rest) := by
  induction prs with
  | nil => rfl
  | cons pr prs ih =>
    simp only [List.length_cons, encProjList, List.append_assoc, readProjList,
      readProjectile_enc pr (h pr (List.mem_cons_self pr prs)),
      Option.bind_eq_bind, Option.some_bind,
      ih fun q hq => h q (List.mem_cons_of_mem _ hq)]

theorem readProjVec_enc (prs : List Projectile) (h : ProjsWf prs)
    (rest : List Nat) :
    readProjVec (encProjVec prs ++ rest) = some (prs, rest) := by
  obtain ⟨hl, he⟩ := h
  simp [readProjVec, encProjVec, List.append_assoc,
    readVarint_varint prs.length hl, readProjList_enc prs he rest]

theorem readServerMessage_encode (m : ServerMessage) (hm : m.Wf)
    (rest : List Nat) :
    readServerMessage (m.encode ++ rest) = some (m, rest) := by
  cases m with
  | Ping => rfl
  | Disconnect => rfl
  | ConnectionAccepted id =>
    simp [ServerMessage.encode, readServerMessage, List.append_assoc,
      readVarint_varint 2 (by norm_num), readVarint_varint id hm]
  | PasswordFailed => rfl
  | UpdatePlayers ps =>
    simp [ServerMessage.encode, readServerMessage, List.append_assoc,
      readVarint_varint 4 (by norm_num), readPlayersMap_enc ps hm]
  | UpdateProjectiles prs =>
    simp [ServerMessage.encode, readServerMessage, List.append_assoc,
      readVarint_varint 5 (by norm_num), readProjVec_enc prs hm]

theorem readClientMessage_encode (m : ClientMessage) (hm : m.Wf)
    (rest : List Nat) :
    readClientMessage (m.encode ++ rest) = some (m, rest) := by
  cases m with
  | Connect u p =>
    simp [ClientMessage.encode, readClientMessage, List.append_assoc,
      readVarint_varint 0 (by norm_num), readString_encString u _ hm.1,
      readString_encString p _ hm.2]
  | Disconnect => rfl
  | Ping => rfl
  | NotifyUpdatePlayer p =>
    simp [ClientMessage.encode, readClientMessage, List.append_assoc,
      readVarint_varint 3 (by norm_num), readPlayer_enc p hm]
  | NotifyShot pr =>
    simp [ClientMessage.encode, readClientMessage, List.append_assoc,
      readVarint_varint 4 (by norm_num), readProjectile_enc pr hm]

end Wire

/-- C1: for every well-formed message of either family, decoding the bytes
produced by encoding succeeds and returns exactly the message together with
the full length of the encoding (decode is a left inverse of encode that
consumes the whole encoding). -/
theorem claim1_decode_encode_roundtrip :
    (∀ m : Wire.ServerMessage, m.Wf →
      Wire.ServerMessage.decode m.encode = some (m, m.encode.length)) ∧
    (∀ m : Wire.ClientMessage, m.Wf →
      Wire.ClientMessage.decode m.encode = some (m, m.encode.length)) := by
  constructor
  · intro m hm
    have h := Wire.readServerMessage_encode m hm []
    rw [List.append_nil] at h
    unfold Wire.ServerMessage.decode
    rw [h]
    simp
  · intro m hm
    have h := Wire.readClientMessage_encode m hm []
    rw [List.append_nil] at h
    unfold Wire.ClientMessage.decode
    rw [h]
    simp

/-- Witness for C1 at concrete messages of each family. -/
theorem claim1_decode_encode_roundtrip_witness :
    Wire.ServerMessage.decode
        (Wire.ServerMessage.encode (.ConnectionAccepted 7)) =
      some (.ConnectionAccepted 7, 2) ∧
    Wire.ClientMessage.decode
        (Wire.ClientMessage.encode (.Connect [97] [98, 99])) =
      some (.Connect [97] [98, 99], 6) := by
  constructor
  · have h := claim1_decode_encode_roundtrip.1 (.ConnectionAccepted 7) (by decide)
    rw [h]; rfl
  · have h := claim1_decode_encode_roundtrip.2 (.Connect [97] [98, 99]) (by decide)
    rw [h]; rfl

/-- C2 (failing-input evaluation): the writer does emit the 4-byte big-endian
length followed by the encoded bytes, but the reader never consumes the
length prefix — it decodes the raw buffer from its first byte.  Writing
`ConnectionAccepted(5)` and reading it back (the whole frame arriving in one
read) yields `Ping`, not `ConnectionAccepted(5)`; likewise a framed client
`Ping` reads back as `Connect("", "")`. -/
theorem claim2_framed_read_ignores_length_prefix :
    Wire.ServerMessage.writeToTcp (.ConnectionAccepted 5) = [0, 0, 0, 2, 2, 5] ∧
    Wire.ServerMessage.readFromTcp
        (Wire.ServerMessage.writeToTcp (.ConnectionAccepted 5)) =
      some .Ping ∧
    some Wire.ServerMessage.Ping ≠
      some (Wire.ServerMessage.ConnectionAccepted 5) ∧
    Wire.ClientMessage.writeToTcp .Ping = [0, 0, 0, 1, 2] ∧
    Wire.ClientMessage.readFromTcp (Wire.ClientMessage.writeToTcp .Ping) =
      some (.Connect [] []) ∧
    some (Wire.ClientMessage.Connect [] []) ≠ some Wire.ClientMessage.Ping := by
  refine ⟨rfl, ?_, by decide, rfl, ?_, by decide⟩ <;> rfl

theorem hmInsert_idem {α : Type} (ps : List (Nat × α)) (id : Nat) (v : α) :
    hmInsert (hmInsert ps id v) id v = hmInsert ps id v := by
  induction ps with
  | nil => simp [hmInsert]
  | cons kp ps ih =>
    obtain ⟨k, w⟩ := kp
    by_cases h : k = id
    · simp [hmInsert, h]
    · simp [hmInsert, h, ih]

theorem hmLookup_hmInsert_self {α : Type} (ps : List (Nat × α)) (id : Nat)
    (v : α) : hmLookup (hmInsert ps id v) id = some v := by
  induction ps with
  | nil => simp [hmInsert, hmLookup]
  | cons kp ps ih =>
    obtain ⟨k, w⟩ := kp
    by_cases h : k = id
    · simp [hmInsert, h, hmLookup]
    · simp [hmInsert, h, hmLookup, ih]

theorem hmLookup_hmInsert_ne {α : Type} (ps : List (Nat × α)) (id : Nat)
    (v : α) (j : Nat) (h : j ≠ id) :
    hmLookup (hmInsert ps id v) j = hmLookup ps j := by
  induction ps with
  | nil => simp [hmInsert, hmLookup, Ne.symm h]
  | cons kp ps ih =>
    obtain ⟨k, w⟩ := kp
    by_cases hk : k = id
    · subst hk
      simp [hmInsert, hmLookup, Ne.symm h]
    · simp [hmInsert, hk, hmLookup, ih]

theorem hmLookup_hmRemove_self {α : Type} (ps : List (Nat × α)) (id : Nat) :
    hmLookup (hmRemove ps id) id = none := by
  induction ps with
  | nil => rfl
  | cons kp ps ih =>
    obtain ⟨k, w⟩ := kp
    by_cases h : k = id
    · simpa [hmRemove, h] using ih
    · simpa [hmRemove, hmLookup, h] using ih

theorem hmLookup_update_map (ps : List (Nat × Ent.Player)) (dt : ℚ)
    (id : Nat) :
    hmLookup (ps.map fun kp => (kp.1, kp.2.update dt)) id =
      (hmLookup ps id).map fun q => q.update dt := by
  induction ps with
  | nil => rfl
  | cons kp ps ih =>
    obtain ⟨k, v⟩ := kp
    by_cases h : k = id
    · simp [hmLookup, h]
    · simp [hmLookup, h, ih]

/-- C8: `World::update_player` is idempotent — applying it twice with the
same id and player yields exactly the same world as applying it once (the
operation is total: it has no error condition). -/
theorem claim8_update_player_idempotent (w : Legacy.World) (id : Nat)
    (p : Wire.Player) :
    (w.update_player id p).update_player id p = w.update_player id p := by
  unfold Legacy.World.update_player
  simp [hmInsert_idem]

/-- C3 (counterexample): a transport/decode error terminates the actor via
the `?` operator with the players map unchanged — the player entry of the
erroring connection is NOT removed, contradicting the claim that every
termination removes it. -/
theorem claim3_error_exit_leaks_player :
    (Ent.ClientHandle.handleStep ⟨"New server", none, 10, false⟩ ⟨0, 0, 0⟩
        ⟨1, true⟩ ⟨⟨[(1, ⟨"alice", ⟨0, 0, 0⟩, Ent.Vec2.ZERO, Ent.Vec2.ZERO⟩)]⟩⟩
        .readErr).outcome = .errored ∧
    hmLookup (Ent.ClientHandle.handleStep ⟨"New server", none, 10, false⟩
        ⟨0, 0, 0⟩ ⟨1, true⟩
        ⟨⟨[(1, ⟨"alice", ⟨0, 0, 0⟩, Ent.Vec2.ZERO, Ent.Vec2.ZERO⟩)]⟩⟩
        .readErr).world.entities.players 1 =
      some ⟨"alice", ⟨0, 0, 0⟩, Ent.Vec2.ZERO, Ent.Vec2.ZERO⟩ := by
  refine ⟨rfl, rfl⟩

/-- C3 (amended): a termination triggered by an explicit `Disconnect`
message or by a zero-byte read removes the connection's player entry before
the actor exits, but a termination by a transport/decode error leaves the
players map untouched (the entry leaks). -/
theorem claim3_amended_disconnect_removes_error_leaks
    (cfg : Ent.ServerConfig) (c : Ent.Color) (st : Ent.HandleState)
    (w : Ent.World) :
    ((Ent.ClientHandle.handleStep cfg c st w (.read .Disconnect)).outcome =
        .exited ∧
      hmLookup (Ent.ClientHandle.handleStep cfg c st w
          (.read .Disconnect)).world.entities.players st.clientId = none) ∧
    ((Ent.ClientHandle.handleStep cfg c st w .readEof).outcome = .exited ∧
      hmLookup (Ent.ClientHandle.handleStep cfg c st w
          .readEof).world.entities.players st.clientId = none) ∧
    ((Ent.ClientHandle.handleStep cfg c st w .readErr).outcome = .errored ∧
      (Ent.ClientHandle.handleStep cfg c st w .readErr).world = w) := by
  refine ⟨⟨rfl, ?_⟩, ⟨rfl, ?_⟩, rfl, rfl⟩ <;>
    simp [Ent.ClientHandle.handleStep, hmLookup_hmRemove_self]

/-- C5: a `Connect` whose password does not match the configured server
password is silently ignored: nothing is written to the socket (no
`ConnectionAccepted`), the world gains no player, no command is sent, the
`accepted` flag stays as it was and the actor keeps looping. -/
theorem claim5_wrong_password_silently_ignored
    (cfg : Ent.ServerConfig) (c : Ent.Color) (st : Ent.HandleState)
    (w : Ent.World) (u given pw : String)
    (hcfg : cfg.password = some pw) (hne : given ≠ pw) :
    Ent.ClientHandle.handleStep cfg c st w (.read (.Connect u given)) =
      ⟨st, w, [], [], .looping⟩ := by
  have hcond : ¬(cfg.password = none ∨ cfg.password = some given) := by
    rw [hcfg]
    rintro (h | h)
    · exact Option.noConfusion h
    · exact hne (Option.some.inj h).symm
  simp only [Ent.ClientHandle.handleStep]
  rw [if_neg hcond]

/-- Witness for C5: server password `"secret"`, client sends
`Connect("bob", "wrong")`. -/
theorem claim5_wrong_password_witness :
    Ent.ClientHandle.handleStep ⟨"New server", some "secret", 10, false⟩
        ⟨0, 0, 0⟩ ⟨1, false⟩ ⟨⟨[]⟩⟩ (.read (.Connect "bob" "wrong")) =
      ⟨⟨1, false⟩, ⟨⟨[]⟩⟩, [], [], .looping⟩ :=
  claim5_wrong_password_silently_ignored _ _ _ _ "bob" "wrong" "secret" rfl
    (by decide)

/-- C7: handling `NotifyUpdatePlayer(p)` upserts `p` at the connection's own
server-assigned id and leaves every other id's entry unchanged — the key
never comes from the client payload (the payload `Player` carries no id at
all). -/
theorem claim7_notify_update_keyed_by_server_id
    (cfg : Ent.ServerConfig) (c : Ent.Color) (st : Ent.HandleState)
    (w : Ent.World) (p : Ent.Player) :
    hmLookup (Ent.ClientHandle.handleStep cfg c st w
        (.read (.NotifyUpdatePlayer p))).world.entities.players st.clientId =
      some p ∧
    ∀ j, j ≠ st.clientId →
      hmLookup (Ent.ClientHandle.handleStep cfg c st w
          (.read (.NotifyUpdatePlayer p))).world.entities.players j =
        hmLookup w.entities.players j := by
  constructor
  · simp [Ent.ClientHandle.handleStep, hmLookup_hmInsert_self]
  · intro j hj
    simp [Ent.ClientHandle.handleStep, hmLookup_hmInsert_ne _ _ _ _ hj]

/-- Witness for C7: ids 1 and 2 connected, connection 1 upserts a player
moved to (5, 5); id 1 now maps to it and id 2 is unchanged. -/
theorem claim7_notify_update_witness :
    hmLookup (Ent.ClientHandle.handleStep
        ⟨"New server", none, 10, false⟩ ⟨0, 0, 0⟩ ⟨1, true⟩
        ⟨⟨[(1, ⟨"alice", ⟨0, 0, 0⟩, Ent.Vec2.ZERO, Ent.Vec2.ZERO⟩),
           (2, ⟨"bob", ⟨0, 0, 0⟩, Ent.Vec2.ZERO, Ent.Vec2.ZERO⟩)]⟩⟩
        (.read (.NotifyUpdatePlayer
          ⟨"alice", ⟨0, 0, 0⟩, ⟨5, 5⟩, Ent.Vec2.ZERO⟩))).world.entities.players
      1 = some ⟨"alice", ⟨0, 0, 0⟩, ⟨5, 5⟩, Ent.Vec2.ZERO⟩ ∧
    hmLookup (Ent.ClientHandle.handleStep
        ⟨"New server", none, 10, false⟩ ⟨0, 0, 0⟩ ⟨1, true⟩
        ⟨⟨[(1, ⟨"alice", ⟨0, 0, 0⟩, Ent.Vec2.ZERO, Ent.Vec2.ZERO⟩),
           (2, ⟨"bob", ⟨0, 0, 0⟩, Ent.Vec2.ZERO, Ent.Vec2.ZERO⟩)]⟩⟩
        (.read (.NotifyUpdatePlayer
          ⟨"alice", ⟨0, 0, 0⟩, ⟨5, 5⟩, Ent.Vec2.ZERO⟩))).world.entities.players
      2 = some ⟨"bob", ⟨0, 0, 0⟩, Ent.Vec2.ZERO, Ent.Vec2.ZERO⟩ := by
  constructor
  · exact (claim7_notify_update_keyed_by_server_id _ _ _ _ _).1
  · rw [(claim7_notify_update_keyed_by_server_id _ _ _ _ _).2 2 (by decide)]
    rfl

theorem handleStep_unaccepted (cfg : Ent.ServerConfig) (c : Ent.Color)
    (st : Ent.HandleState) (w : Ent.World) (e : Ent.Event)
    (hst : st.accepted = false) (he : Ent.connectSucceeds cfg e = false) :
    (Ent.ClientHandle.handleStep cfg c st w e).state.accepted = false := by
  cases e with
  | read m =>
    cases m with
    | Connect u p =>
      have hcond : ¬(cfg.password = none ∨ cfg.password = some p) := by
        simpa [Ent.connectSucceeds] using he
      simp [Ent.ClientHandle.handleStep, hcond, hst]
    | Disconnect => simpa [Ent.ClientHandle.handleStep] using hst
    | Ping => simpa [Ent.ClientHandle.handleStep] using hst
    | NotifyUpdatePlayer p => simpa [Ent.ClientHandle.handleStep] using hst
  | readEof => simpa [Ent.ClientHandle.handleStep] using hst
  | readErr => simpa [Ent.ClientHandle.handleStep] using hst
  | outbound m => simpa [Ent.ClientHandle.handleStep] using hst

theorem drainOf_unaccepted (cfg : Ent.ServerConfig) (c : Ent.Color)
    (st : Ent.HandleState) (w : Ent.World) (e : Ent.Event)
    (hst : st.accepted = false) :
    Ent.ClientHandle.drainOf e (Ent.ClientHandle.handleStep cfg c st w e) =
      [] := by
  cases e with
  | read m => rfl
  | readEof => rfl
  | readErr => rfl
  | outbound m => simp [Ent.ClientHandle.drainOf, Ent.ClientHandle.handleStep, hst]

theorem run_cons (cfg : Ent.ServerConfig) (c : Ent.Color)
    (st : Ent.HandleState) (w : Ent.World) (e : Ent.Event)
    (es : List Ent.Event) :
    Ent.ClientHandle.run cfg c st w (e :: es) =
      if (Ent.ClientHandle.handleStep cfg c st w e).outcome = .looping then
        ((Ent.ClientHandle.run cfg c
            (Ent.ClientHandle.handleStep cfg c st w e).state
            (Ent.ClientHandle.handleStep cfg c st w e).world es).1,
          (Ent.ClientHandle.run cfg c
            (Ent.ClientHandle.handleStep cfg c st w e).state
            (Ent.ClientHandle.handleStep cfg c st w e).world es).2.1,
          Ent.ClientHandle.drainOf e (Ent.ClientHandle.handleStep cfg c st w e)
            ++ (Ent.ClientHandle.run cfg c
                  (Ent.ClientHandle.handleStep cfg c st w e).state
                  (Ent.ClientHandle.handleStep cfg c st w e).world es).2.2)
      else
        ((Ent.ClientHandle.handleStep cfg c st w e).state,
          (Ent.ClientHandle.handleStep cfg c st w e).world,
          Ent.ClientHandle.drainOf e
            (Ent.ClientHandle.handleStep cfg c st w e)) := rfl

/-- C10: starting from a handle whose `accepted` flag is still false, as long
as no password-passing `Connect` has been processed, the outbound-drain
branch writes nothing to the socket: every broadcast queued to the
not-yet-authenticated connection is received from the queue and silently
discarded. -/
theorem claim10_no_drain_write_before_handshake
    (cfg : Ent.ServerConfig) (c : Ent.Color) (st : Ent.HandleState)
    (w : Ent.World) (events : List Ent.Event)
    (hst : st.accepted = false)
    (hev : ∀ e ∈ events, Ent.connectSucceeds cfg e = false) :
    (Ent.ClientHandle.run cfg c st w events).2.2 = [] := by
  induction events generalizing st w with
  | nil => rfl
  | cons e es ih =>
    have he := hev e (List.mem_cons_self e es)
    have hkeep := handleStep_unaccepted cfg c st w e hst he
    have hdr := drainOf_unaccepted cfg c st w e hst
    rw [run_cons]
    by_cases hlo :
      (Ent.ClientHandle.handleStep cfg c st w e).outcome = .looping
    · rw [if_pos hlo]
      simp only [hdr, List.nil_append]
      exact ih _ _ hkeep fun e' he' => hev e' (List.mem_cons_of_mem _ he')
    · rw [if_neg hlo]
      exact hdr

/-- Witness for C10: a fresh handle on a password-protected server receives
a queued broadcast, a wrong-password `Connect`, and another broadcast — no
drained message is written. -/
theorem claim10_no_drain_write_witness :
    (Ent.ClientHandle.init 1).accepted = false ∧
    (Ent.ClientHandle.run ⟨"New server", some "secret", 10, false⟩ ⟨0, 0, 0⟩
        (Ent.ClientHandle.init 1) ⟨⟨[]⟩⟩
        [.outbound .Ping, .read (.Connect "bob" "wrong"),
          .outbound (.ConnectionAccepted 1)]).2.2 = [] := by
  refine ⟨rfl, claim10_no_drain_write_before_handshake _ _ _ _ _ rfl ?_⟩
  decide

/-- C4 (counterexample): the tick timer fires with period 1/60 s but the tick
body advances the world with the hard-coded `dt = 0.05`, so a player with
velocity (60, 0) starting at x = 0 is at x = 3 — not 1 — after exactly one
tick. -/
theorem claim4_tick_dt_is_not_the_timer_period :
    Ent.tickDt ≠ Ent.tickPeriod ∧
    (hmLookup (Ent.Server.tickBody
          ⟨⟨[(1, ⟨"alice", ⟨0, 0, 0⟩, ⟨0, 0⟩, ⟨60, 0⟩⟩)]⟩⟩).1.entities.players
        1).map (fun q => q.pos.x) = some 3 ∧
    (3 : ℚ) ≠ 1 := by
  refine ⟨by norm_num [Ent.tickDt, Ent.tickPeriod], ?_, by norm_num⟩
  norm_num [Ent.Server.tickBody, Ent.Entities.update, Ent.Player.update,
    Ent.tickDt, hmLookup]

/-- C4 (amended): on every firing of the 1/60 s tick timer the body calls the
entity update with `dt = 0.05` (not the timer period): each player's position
advances by `velocity * 0.05`, and the updated entities snapshot is what gets
broadcast. -/
theorem claim4_amended_tick_advances_by_005
    (w : Ent.World) (id : Nat) (p : Ent.Player)
    (h : hmLookup w.entities.players id = some p) :
    hmLookup (Ent.Server.tickBody w).1.entities.players id =
      some (p.update Ent.tickDt) ∧
    (Ent.Server.tickBody w).2 =
      .Broadcast (.UpdateEntities (Ent.Server.tickBody w).1.entities) ∧
    Ent.tickDt = 1 / 20 ∧ Ent.tickPeriod = 1 / 60 := by
  refine ⟨?_, rfl, rfl, rfl⟩
  simp only [Ent.Server.tickBody, Ent.Entities.update]
  rw [hmLookup_update_map, h]
  rfl

/-- Witness for C4 (amended): one tick moves the velocity-(60, 0) player from
(0, 0) to (3, 0). -/
theorem claim4_amended_witness :
    hmLookup (Ent.Server.tickBody
        ⟨⟨[(1, ⟨"alice", ⟨0, 0, 0⟩, ⟨0, 0⟩, ⟨60, 0⟩⟩)]⟩⟩).1.entities.players
      1 = some (Ent.Player.update ⟨"alice", ⟨0, 0, 0⟩, ⟨0, 0⟩, ⟨60, 0⟩⟩
        Ent.tickDt) ∧
    Ent.Player.update ⟨"alice", ⟨0, 0, 0⟩, ⟨0, 0⟩, ⟨60, 0⟩⟩ Ent.tickDt =
      ⟨"alice", ⟨0, 0, 0⟩, ⟨3, 0⟩, ⟨60, 0⟩⟩ := by
  refine ⟨(claim4_amended_tick_advances_by_005
    ⟨⟨[(1, ⟨"alice", ⟨0, 0, 0⟩, ⟨0, 0⟩, ⟨60, 0⟩⟩)]⟩⟩ 1
    ⟨"alice", ⟨0, 0, 0⟩, ⟨0, 0⟩, ⟨60, 0⟩⟩ (by rfl)).1, ?_⟩
  norm_num [Ent.Player.update, Ent.tickDt]

/-- C6: when the registry already holds at least `max_clients` outbound
queues, the accept branch does nothing: no actor is spawned for the new
stream (so no handshake can happen and no `ConnectionAccepted` can ever be
written to it), no player id is allocated, and the registry — the
already-registered connections — is left exactly as it was. -/
theorem claim6_capacity_rejection
    (cfg : Ent.ServerConfig) (s : Ent.ServerState)
    (h : cfg.maxClients ≤ s.clientTxs.length) :
    Ent.Server.acceptStep cfg s = (s, none) := by
  unfold Ent.Server.acceptStep
  rw [if_neg (by omega)]

/-- Witness for C6: a server with `max_clients = 1` and one registered queue
rejects the second connection. -/
theorem claim6_capacity_rejection_witness :
    (1 : Nat) ≤ [10].length ∧
    Ent.Server.acceptStep ⟨"New server", none, 1, false⟩ ⟨[10], 2⟩ =
      (⟨[10], 2⟩, none) :=
  ⟨by decide, claim6_capacity_rejection _ _ (by decide)⟩

/-- C9 (counterexample): the outbound-queue registration is created at accept
time, before any authentication — accepting the first connection on a fresh
password-protected server registers queue 1 while the spawned actor is still
unauthenticated (`accepted = false`) and no handshake has happened; and
registrations are never destroyed — both dispatcher commands leave the
registry exactly as it is. -/
theorem claim9_registration_not_tied_to_authentication :
    (Ent.Server.acceptStep ⟨"New server", some "secret", 10, false⟩
        Ent.Server.initState).1.clientTxs = [1] ∧
    (Ent.Server.acceptStep ⟨"New server", some "secret", 10, false⟩
        Ent.Server.initState).2 = some ⟨1, false⟩ ∧
    (Ent.Server.commandStep ⟨[1], 2⟩ ⟨⟨[]⟩⟩ (.Broadcast .Ping)).1 = ⟨[1], 2⟩ ∧
    (Ent.Server.commandStep ⟨[1], 2⟩ ⟨⟨[]⟩⟩ .UpdateEntities).1 = ⟨[1], 2⟩ :=
  ⟨rfl, rfl, rfl, rfl⟩

/-- C9 (amended): a Connection Registration is created at accept time — the
accept branch either leaves the registry unchanged (capacity rejection) or
appends the fresh queue, and any actor it spawns starts unauthenticated —
and it is never destroyed: no dispatcher command removes a registration. -/
theorem claim9_amended_registry_append_only :
    (∀ (cfg : Ent.ServerConfig) (s : Ent.ServerState),
      (Ent.Server.acceptStep cfg s).1.clientTxs = s.clientTxs ∨
      (Ent.Server.acceptStep cfg s).1.clientTxs =
        s.clientTxs ++ [s.playerIdCounter]) ∧
    (∀ (cfg : Ent.ServerConfig) (s : Ent.ServerState) (st : Ent.HandleState),
      (Ent.Server.acceptStep cfg s).2 = some st → st.accepted = false) ∧
    (∀ (s : Ent.ServerState) (w : Ent.World) (cmd : Ent.ServerCommand),
      (Ent.Server.commandStep s w cmd).1 = s) := by
  refine ⟨?_, ?_, ?_⟩
  · intro cfg s
    unfold Ent.Server.acceptStep
    by_cases h : s.clientTxs.length < cfg.maxClients
    · rw [if_pos h]; right; rfl
    · rw [if_neg h]; left; rfl
  · intro cfg s st h
    unfold Ent.Server.acceptStep at h
    by_cases hc : s.clientTxs.length < cfg.maxClients
    · rw [if_pos hc] at h
      have h' : some (Ent.ClientHandle.init s.playerIdCounter) = some st := h
      rw [← Option.some.inj h']
      rfl
    · rw [if_neg hc] at h
      exact Option.noConfusion h
  · intro s w cmd
    cases cmd <;> rfl

/-- Witness for C9 (amended): accepting on a fresh server spawns an actor
whose `accepted` flag is false. -/
theorem claim9_amended_witness :
    (Ent.Server.acceptStep ⟨"New server", none, 10, false⟩
        Ent.Server.initState).2 = some (Ent.ClientHandle.init 1) ∧
    (Ent.ClientHandle.init 1).accepted = false :=
  ⟨rfl, claim9_amended_registry_append_only.2.1 ⟨"New server", none, 10, false⟩
    Ent.Server.initState (Ent.ClientHandle.init 1) rfl⟩
